import Mathlib

/-!
Verification development for the RISC-V assembler core
(`assembler/riscv_assembler.py`).  The Python source is shallowly embedded:
strings are Lean `String`s manipulated through explicit character-list
helpers that mirror the Python string/regex primitives actually used,
machine integers are `Nat`/`Int` with explicit masking, and every fallible
Python code path (exceptions caught by `second_pass`) is an `Except AsmErr`.
-/

namespace RiscvAsm

/-- Python whitespace set used by `str.strip`, `str.split()` and the regex
class `\s` (ASCII range). -/
def isPySpace (c : Char) : Bool :=
  c = ' ' || c = '\t' || c = '\n' || c = '\r' || c = '\x0b' || c = '\x0c'

/-- Characters matched by the regex class `\w` (ASCII range). -/
def isWordChar (c : Char) : Bool :=
  c.isAlphanum || c = '_'

/-- Python `str.strip()` on a character list. -/
def pyStripL (cs : List Char) : List Char :=
  ((cs.dropWhile isPySpace).reverse.dropWhile isPySpace).reverse

/-- Python `str.strip()`. -/
def pyStrip (s : String) : String := ⟨pyStripL s.data⟩

/-- Embedding of `re.sub(r'[#;].*', '', line)` on a single (newline-free)
line: drop everything from the first `#` or `;` on. -/
def stripComment (s : String) : String :=
  ⟨s.data.takeWhile (fun c => !(c = '#' || c = ';'))⟩

/-- Python `str.lower()` (ASCII range). -/
def pyLower (s : String) : String := ⟨s.data.map Char.toLower⟩

def splitNLAux (cs : List Char) (acc : List Char) : List String :=
  match cs with
  | [] => [⟨acc.reverse⟩]
  | c :: rest =>
    if c = '\n' then ⟨acc.reverse⟩ :: splitNLAux rest []
    else splitNLAux rest (c :: acc)

/-- Python `source.split('\n')` (keeps empty pieces). -/
def splitNL (s : String) : List String := splitNLAux s.data []

def pySplitWsAux (cs : List Char) (acc : List Char) : List String :=
  match cs with
  | [] => if acc.isEmpty then [] else [⟨acc.reverse⟩]
  | c :: rest =>
    if isPySpace c then
      if acc.isEmpty then pySplitWsAux rest []
      else ⟨acc.reverse⟩ :: pySplitWsAux rest []
    else pySplitWsAux rest (c :: acc)

/-- Python `line.replace(',', ' ').split()` from `assemble_instruction`. -/
def tokenize (line : String) : List String :=
  pySplitWsAux (line.data.map (fun c => if c = ',' then ' ' else c)) []

/-- Lookup in an insertion-ordered map (Python `dict` read). -/
def dictGet? (m : List (String × Nat)) (k : String) : Option Nat :=
  match m with
  | [] => none
  | (k', v) :: rest => if k' = k then some v else dictGet? rest k

/-- Write to an insertion-ordered map (Python `d[k] = v`, overwrite keeps
the original slot). -/
def dictSet (m : List (String × Nat)) (k : String) (v : Nat) : List (String × Nat) :=
  match m with
  | [] => [(k, v)]
  | (k', v') :: rest => if k' = k then (k, v) :: rest else (k', v') :: dictSet rest k v

/-- The `REGISTERS` table of the source. -/
def REGISTERS : List (String × Nat) :=
  [("x0", 0), ("zero", 0),
   ("x1", 1), ("ra", 1),
   ("x2", 2), ("sp", 2),
   ("x3", 3), ("gp", 3),
   ("x4", 4), ("tp", 4),
   ("x5", 5), ("t0", 5),
   ("x6", 6), ("t1", 6),
   ("x7", 7), ("t2", 7),
   ("x8", 8), ("s0", 8), ("fp", 8),
   ("x9", 9), ("s1", 9),
   ("x10", 10), ("a0", 10),
   ("x11", 11), ("a1", 11),
   ("x12", 12), ("a2", 12),
   ("x13", 13), ("a3", 13),
   ("x14", 14), ("a4", 14),
   ("x15", 15), ("a5", 15),
   ("x16", 16), ("a6", 16),
   ("x17", 17), ("a7", 17),
   ("x18", 18), ("s2", 18),
   ("x19", 19), ("s3", 19),
   ("x20", 20), ("s4", 20),
   ("x21", 21), ("s5", 21),
   ("x22", 22), ("s6", 22),
   ("x23", 23), ("s7", 23),
   ("x24", 24), ("s8", 24),
   ("x25", 25), ("s9", 25),
   ("x26", 26), ("s10", 26),
   ("x27", 27), ("s11", 27),
   ("x28", 28), ("t3", 28),
   ("x29", 29), ("t4", 29),
   ("x30", 30), ("t5", 30),
   ("x31", 31), ("t6", 31)]

/-- The `OPCODES` table of the source. -/
def OPCODES : List (String × Nat) :=
  [("add", 0b0110011), ("sub", 0b0110011), ("and", 0b0110011),
   ("or", 0b0110011), ("xor", 0b0110011), ("sll", 0b0110011),
   ("srl", 0b0110011), ("sra", 0b0110011), ("slt", 0b0110011),
   ("sltu", 0b0110011),
   ("addi", 0b0010011), ("andi", 0b0010011), ("ori", 0b0010011),
   ("xori", 0b0010011), ("slti", 0b0010011), ("sltiu", 0b0010011),
   ("slli", 0b0010011), ("srli", 0b0010011), ("srai", 0b0010011),
   ("lw", 0b0000011), ("lh", 0b0000011), ("lb", 0b0000011),
   ("lhu", 0b0000011), ("lbu", 0b0000011),
   ("sw", 0b0100011), ("sh", 0b0100011), ("sb", 0b0100011),
   ("beq", 0b1100011), ("bne", 0b1100011), ("blt", 0b1100011),
   ("bge", 0b1100011), ("bltu", 0b1100011), ("bgeu", 0b1100011),
   ("jal", 0b1101111),
   ("jalr", 0b1100111),
   ("lui", 0b0110111),
   ("auipc", 0b0010111),
   ("ecall", 0b1110011), ("halt", 0b1110011),
   ("rotl", 0b0001011), ("rotr", 0b0001011), ("rng", 0b0001011)]

/-- The `FUNCT3` table of the source. -/
def FUNCT3 : List (String × Nat) :=
  [("add", 0b000), ("sub", 0b000), ("sll", 0b001), ("slt", 0b010),
   ("sltu", 0b011), ("xor", 0b100), ("srl", 0b101), ("sra", 0b101),
   ("or", 0b110), ("and", 0b111),
   ("addi", 0b000), ("slti", 0b010), ("sltiu", 0b011), ("xori", 0b100),
   ("ori", 0b110), ("andi", 0b111), ("slli", 0b001), ("srli", 0b101),
   ("srai", 0b101),
   ("lb", 0b000), ("lh", 0b001), ("lw", 0b010), ("lbu", 0b100), ("lhu", 0b101),
   ("sb", 0b000), ("sh", 0b001), ("sw", 0b010),
   ("beq", 0b000), ("bne", 0b001), ("blt", 0b100), ("bge", 0b101),
   ("bltu", 0b110), ("bgeu", 0b111),
   ("jalr", 0b000),
   ("rotl", 0b010), ("rotr", 0b011), ("rng", 0b100)]

/-- The `FUNCT7` table of the source. -/
def FUNCT7 : List (String × Nat) :=
  [("add", 0b0000000), ("sub", 0b0100000),
   ("sll", 0b0000000), ("slt", 0b0000000), ("sltu", 0b0000000),
   ("xor", 0b0000000), ("srl", 0b0000000), ("sra", 0b0100000),
   ("or", 0b0000000), ("and", 0b0000000),
   ("slli", 0b0000000), ("srli", 0b0000000), ("srai", 0b0100000),
   ("rotl", 0b0000000), ("rotr", 0b0000000), ("rng", 0b0000000)]

/-- Table value for a mnemonic; callers (the dispatch of
`assemble_instruction`) only apply it to keys present in the table. -/
def opcodeOf (instr : String) : Nat := (dictGet? OPCODES instr).getD 0

def funct3Of (instr : String) : Nat := (dictGet? FUNCT3 instr).getD 0

def funct7Of (instr : String) : Nat := (dictGet? FUNCT7 instr).getD 0

/-- Failure kinds of the per-line exceptions raised in the source and
caught by `second_pass` (each Python `ValueError` / `IndexError`). -/
inductive AsmErr where
  | unknownRegister (tok : String)
  | immediateOutOfRange (value lo hi : Int)
  | invalidIntLiteral (tok : String)
  | invalidMemoryOperand (tok : String)
  | unknownInstruction (instr : String)
  | indexError (idx : Nat)
deriving DecidableEq

/-- Value of a digit character in the given base, as accepted by Python
`int(s, base)`. -/
def digitVal (base : Nat) (c : Char) : Option Nat :=
  let v :=
    if '0' ≤ c ∧ c ≤ '9' then some (c.toNat - '0'.toNat)
    else if 'a' ≤ c ∧ c ≤ 'f' then some (c.toNat - 'a'.toNat + 10)
    else if 'A' ≤ c ∧ c ≤ 'F' then some (c.toNat - 'A'.toNat + 10)
    else none
  match v with
  | some d => if d < base then some d else none
  | none => none

def parseNatDigitsAux (base : Nat) (cs : List Char) (acc : Nat) : Option Nat :=
  match cs with
  | [] => some acc
  | c :: rest =>
    match digitVal base c with
    | some d => parseNatDigitsAux base rest (acc * base + d)
    | none => none

/-- Parse a non-empty run of digits in the given base. -/
def parseNatDigits (base : Nat) (cs : List Char) : Option Nat :=
  match cs with
  | [] => none
  | _ => parseNatDigitsAux base cs 0

/-- Python `int(s)` on a whitespace-free token: optional sign then decimal
digits. -/
def parseDec (cs : List Char) : Option Int :=
  match cs with
  | '-' :: rest => (parseNatDigits 10 rest).map (fun n => -(n : Int))
  | '+' :: rest => (parseNatDigits 10 rest).map (fun n => (n : Int))
  | _ => (parseNatDigits 10 cs).map (fun n => (n : Int))

/-- The numeral-literal logic of `parse_immediate`: `int(s,16)` behind a
`0x`/`0X` prefix test, `int(s,2)` behind `0b`/`0B`, else `int(s)`. -/
def pyIntLiteral (cs : List Char) : Option Int :=
  match cs with
  | '0' :: x :: rest =>
    if x = 'x' ∨ x = 'X' then (parseNatDigits 16 rest).map (fun n => (n : Int))
    else if x = 'b' ∨ x = 'B' then (parseNatDigits 2 rest).map (fun n => (n : Int))
    else parseDec cs
  | _ => parseDec cs

/-- Embedding of `RISCVAssembler.parse_register`: strip, lowercase, drop
commas, look up in `REGISTERS`. -/
def parse_register (tok : String) : Except AsmErr Nat :=
  let t : String := ⟨((pyStripL tok.data).map Char.toLower).filter (fun c => c ≠ ',')⟩
  match dictGet? REGISTERS t with
  | some n => .ok n
  | none => .error (.unknownRegister t)

/-- Embedding of `RISCVAssembler.parse_immediate`: parse the literal,
range-check against the signed or unsigned `bits`-wide interval, and
convert a negative value to its `bits`-bit two's complement. -/
def parse_immediate (tok : String) (bits : Nat) (signed : Bool) : Except AsmErr Int :=
  let t : List Char := (pyStripL tok.data).filter (fun c => c ≠ ',')
  match pyIntLiteral t with
  | none => .error (.invalidIntLiteral ⟨t⟩)
  | some value =>
    let min_val : Int := if signed then -(2 ^ (bits - 1)) else 0
    let max_val : Int := if signed then 2 ^ (bits - 1) - 1 else 2 ^ bits - 1
    if value < min_val ∨ value > max_val then
      .error (.immediateOutOfRange value min_val max_val)
    else if value < 0 then .ok (Int.emod value (2 ^ bits))
    else .ok value

/-- Embedding of the anchored regex `(-?\d+)\s*\(\s*(\w+)\s*\)` used by
`parse_memory_operand` (`re.match`: anchored at the start, trailing text
allowed); returns the two capture groups. -/
def memMatch (cs : List Char) : Option (List Char × List Char) :=
  let signAndRest : List Char × List Char :=
    match cs with
    | '-' :: r => (['-'], r)
    | _ => ([], cs)
  let ds := signAndRest.2.takeWhile Char.isDigit
  if ds.isEmpty then none
  else
    match (signAndRest.2.drop ds.length).dropWhile isPySpace with
    | '(' :: r2 =>
      let r3 := r2.dropWhile isPySpace
      let w := r3.takeWhile isWordChar
      if w.isEmpty then none
      else
        match (r3.drop w.length).dropWhile isPySpace with
        | ')' :: _ => some (signAndRest.1 ++ ds, w)
        | _ => none
    | _ => none

/-- Embedding of `RISCVAssembler.parse_memory_operand`. -/
def parse_memory_operand (operand : String) : Except AsmErr (Int × Nat) :=
  match memMatch (pyStripL operand.data) with
  | none => .error (.invalidMemoryOperand operand)
  | some (offStr, regStr) => do
    let offset ← parse_immediate ⟨offStr⟩ 12 true
    let base ← parse_register ⟨regStr⟩
    return (offset, base)

/-- Python `x >> n` on a possibly negative `int` (floor shift). -/
def pyShr (x : Int) (n : Nat) : Int := Int.ediv x (2 ^ n)

/-- Python `x & (2^k - 1)` on a possibly negative `int`. -/
def pyAndMask (x : Int) (k : Nat) : Nat := (Int.emod x (2 ^ k)).toNat

/-- Embedding of `RISCVAssembler.encode_r_type`. -/
def encode_r_type (instr : String) (rd rs1 rs2 : Nat) : Nat :=
  (funct7Of instr <<< 25) ||| (rs2 <<< 20) ||| (rs1 <<< 15) |||
    (funct3Of instr <<< 12) ||| (rd <<< 7) ||| opcodeOf instr

/-- Embedding of `RISCVAssembler.encode_i_type` (including the shift-imm
special case packing funct7 above the 5-bit shamt). -/
def encode_i_type (instr : String) (rd rs1 : Nat) (imm : Int) : Nat :=
  let imm' : Int :=
    if instr = "slli" ∨ instr = "srli" ∨ instr = "srai" then
      ((funct7Of instr <<< 5) ||| pyAndMask imm 5 : Nat)
    else imm
  (pyAndMask imm' 12 <<< 20) ||| (rs1 <<< 15) ||| (funct3Of instr <<< 12) |||
    (rd <<< 7) ||| opcodeOf instr

/-- Embedding of `RISCVAssembler.encode_s_type`. -/
def encode_s_type (instr : String) (rs2 rs1 : Nat) (imm : Int) : Nat :=
  let imm_11_5 := pyAndMask (pyShr imm 5) 7
  let imm_4_0 := pyAndMask imm 5
  (imm_11_5 <<< 25) ||| (rs2 <<< 20) ||| (rs1 <<< 15) |||
    (funct3Of instr <<< 12) ||| (imm_4_0 <<< 7) ||| opcodeOf instr

/-- Embedding of `RISCVAssembler.encode_b_type`. -/
def encode_b_type (instr : String) (rs1 rs2 : Nat) (imm : Int) : Nat :=
  let imm_12 := pyAndMask (pyShr imm 12) 1
  let imm_11 := pyAndMask (pyShr imm 11) 1
  let imm_10_5 := pyAndMask (pyShr imm 5) 6
  let imm_4_1 := pyAndMask (pyShr imm 1) 4
  (imm_12 <<< 31) ||| (imm_10_5 <<< 25) ||| (rs2 <<< 20) ||| (rs1 <<< 15) |||
    (funct3Of instr <<< 12) ||| (imm_4_1 <<< 8) ||| (imm_11 <<< 7) ||| opcodeOf instr

/-- Embedding of `RISCVAssembler.encode_u_type`. -/
def encode_u_type (instr : String) (rd : Nat) (imm : Int) : Nat :=
  (pyAndMask imm 20 <<< 12) ||| (rd <<< 7) ||| opcodeOf instr

/-- Embedding of `RISCVAssembler.encode_j_type`. -/
def encode_j_type (instr : String) (rd : Nat) (imm : Int) : Nat :=
  let imm_20 := pyAndMask (pyShr imm 20) 1
  let imm_19_12 := pyAndMask (pyShr imm 12) 8
  let imm_11 := pyAndMask (pyShr imm 11) 1
  let imm_10_1 := pyAndMask (pyShr imm 1) 10
  (imm_20 <<< 31) ||| (imm_10_1 <<< 21) ||| (imm_11 <<< 20) |||
    (imm_19_12 <<< 12) ||| (rd <<< 7) ||| opcodeOf instr

/-- Embedding of `RISCVAssembler.encode_crypto`. -/
def encode_crypto (instr : String) (rd rs1 rs2 : Nat) : Nat :=
  (funct7Of instr <<< 25) ||| (rs2 <<< 20) ||| (rs1 <<< 15) |||
    (funct3Of instr <<< 12) ||| (rd <<< 7) ||| opcodeOf instr

/-- Python `parts[i]`: an out-of-range index raises `IndexError`, which
`second_pass` catches like any other per-line exception. -/
def getPart (parts : List String) (i : Nat) : Except AsmErr String :=
  match parts.get? i with
  | some s => .ok s
  | none => .error (.indexError i)

/-- Dispatch body of `RISCVAssembler.assemble_instruction` after the
tokenization `parts = line.replace(',', ' ').split()`, over the token
list, the label table and the current instruction address. -/
def encodeTokens (labels : List (String × Nat)) (current_addr : Nat)
    (parts : List String) : Except AsmErr Nat := do
  let instr := pyLower (← getPart parts 0)
  if instr = "nop" then
    return encode_i_type "addi" 0 0 0
  else if instr = "li" then
    let rd ← parse_register (← getPart parts 1)
    let imm ← parse_immediate (← getPart parts 2) 12 true
    return encode_i_type "addi" rd 0 imm
  else if instr = "mv" then
    let rd ← parse_register (← getPart parts 1)
    let rs ← parse_register (← getPart parts 2)
    return encode_i_type "addi" rd rs 0
  else if instr = "j" then
    let tgt ← getPart parts 1
    match dictGet? labels tgt with
    | some a => return encode_j_type "jal" 0 ((a : Int) - current_addr)
    | none =>
      let offset ← parse_immediate tgt 21 true
      return encode_j_type "jal" 0 offset
  else if instr ∈ ["add", "sub", "and", "or", "xor", "sll", "srl", "sra", "slt", "sltu"] then
    let rd ← parse_register (← getPart parts 1)
    let rs1 ← parse_register (← getPart parts 2)
    let rs2 ← parse_register (← getPart parts 3)
    return encode_r_type instr rd rs1 rs2
  else if instr ∈ ["addi", "andi", "ori", "xori", "slti", "sltiu"] then
    let rd ← parse_register (← getPart parts 1)
    let rs1 ← parse_register (← getPart parts 2)
    let imm ← parse_immediate (← getPart parts 3) 12 true
    return encode_i_type instr rd rs1 imm
  else if instr ∈ ["slli", "srli", "srai"] then
    let rd ← parse_register (← getPart parts 1)
    let rs1 ← parse_register (← getPart parts 2)
    let shamt ← parse_immediate (← getPart parts 3) 5 false
    return encode_i_type instr rd rs1 shamt
  else if instr ∈ ["lw", "lh", "lb", "lhu", "lbu"] then
    let rd ← parse_register (← getPart parts 1)
    let ob ← parse_memory_operand (← getPart parts 2)
    return encode_i_type instr rd ob.2 ob.1
  else if instr ∈ ["sw", "sh", "sb"] then
    let rs2 ← parse_register (← getPart parts 1)
    let ob ← parse_memory_operand (← getPart parts 2)
    return encode_s_type instr rs2 ob.2 ob.1
  else if instr ∈ ["beq", "bne", "blt", "bge", "bltu", "bgeu"] then
    let rs1 ← parse_register (← getPart parts 1)
    let rs2 ← parse_register (← getPart parts 2)
    let tgt ← getPart parts 3
    match dictGet? labels tgt with
    | some a => return encode_b_type instr rs1 rs2 ((a : Int) - current_addr)
    | none =>
      let offset ← parse_immediate tgt 13 true
      return encode_b_type instr rs1 rs2 offset
  else if instr = "jal" then
    let rd ← parse_register (← getPart parts 1)
    let tgt ← getPart parts 2
    match dictGet? labels tgt with
    | some a => return encode_j_type instr rd ((a : Int) - current_addr)
    | none =>
      let offset ← parse_immediate tgt 21 true
      return encode_j_type instr rd offset
  else if instr = "jalr" then
    let rd ← parse_register (← getPart parts 1)
    let t2 ← getPart parts 2
    if t2.data.contains '(' then
      let ob ← parse_memory_operand t2
      return encode_i_type instr rd ob.2 ob.1
    else
      let rs1 ← parse_register t2
      let offset ← if parts.length > 3 then parse_immediate (← getPart parts 3) 12 true
                   else pure 0
      return encode_i_type instr rd rs1 offset
  else if instr = "lui" then
    let rd ← parse_register (← getPart parts 1)
    let imm ← parse_immediate (← getPart parts 2) 20 false
    return encode_u_type instr rd imm
  else if instr = "auipc" then
    let rd ← parse_register (← getPart parts 1)
    let imm ← parse_immediate (← getPart parts 2) 20 false
    return encode_u_type instr rd imm
  else if instr ∈ ["halt", "ecall"] then
    return 0x00000073
  else if instr = "rng" then
    let rd ← parse_register (← getPart parts 1)
    return encode_crypto instr rd 0 0
  else if instr = "rotl" then
    let rd ← parse_register (← getPart parts 1)
    let rs1 ← parse_register (← getPart parts 2)
    let rs2 ← parse_register (← getPart parts 3)
    return encode_crypto instr rd rs1 rs2
  else if instr = "rotr" then
    let rd ← parse_register (← getPart parts 1)
    let rs1 ← parse_register (← getPart parts 2)
    let rs2 ← parse_register (← getPart parts 3)
    return encode_crypto instr rd rs1 rs2
  else
    throw (.unknownInstruction instr)

/-- Embedding of `RISCVAssembler.assemble_instruction`. -/
def assemble_instruction (labels : List (String × Nat)) (line : String)
    (current_addr : Nat) : Except AsmErr Nat :=
  encodeTokens labels current_addr (tokenize line)

/-- A `(address, line, line_num)` triple of `self.instructions`. -/
structure PendingInstr where
  addr : Nat
  text : String
  lineNum : Nat
deriving DecidableEq

/-- Information content of one entry of `self.errors`: the formatted string
`f"Line {line_num}: {e} - '{line}'"`. -/
structure Diagnostic where
  lineNum : Nat
  err : AsmErr
  text : String
deriving DecidableEq

def first_pass_aux (lines : List String) (line_num : Nat) (addr : Nat)
    (insts : List PendingInstr) (labels : List (String × Nat)) :
    List PendingInstr × List (String × Nat) :=
  match lines with
  | [] => (insts, labels)
  | l :: rest =>
    let line1 := pyStrip (stripComment l)
    if line1 = "" then first_pass_aux rest (line_num + 1) addr insts labels
    else if line1.data.contains ':' then
      let before : String := ⟨line1.data.takeWhile (fun c => c ≠ ':')⟩
      let after : String := ⟨(line1.data.dropWhile (fun c => c ≠ ':')).drop 1⟩
      let labels' := dictSet labels (pyStrip before) addr
      let line2 := pyStrip after
      if line2 = "" then first_pass_aux rest (line_num + 1) addr insts labels'
      else first_pass_aux rest (line_num + 1) (addr + 4)
        (insts ++ [⟨addr, line2, line_num⟩]) labels'
    else first_pass_aux rest (line_num + 1) (addr + 4)
      (insts ++ [⟨addr, line1, line_num⟩]) labels

/-- Embedding of `RISCVAssembler.first_pass` (fresh instance state:
`current_address = 0`, empty `instructions` and `labels`; `enumerate`
starts line numbers at 1). -/
def first_pass (lines : List String) : List PendingInstr × List (String × Nat) :=
  first_pass_aux lines 1 0 [] []

/-- Embedding of `RISCVAssembler.second_pass`: each pending instruction
either appends its word to `machine_code` or appends a diagnostic to
`errors`. -/
def second_pass (labels : List (String × Nat)) :
    List PendingInstr → List Nat × List Diagnostic
  | [] => ([], [])
  | p :: rest =>
    match assemble_instruction labels p.text p.addr with
    | .ok w =>
      let r := second_pass labels rest
      (w :: r.1, r.2)
    | .error e =>
      let r := second_pass labels rest
      (r.1, ⟨p.lineNum, e, p.text⟩ :: r.2)

/-- Final per-instance state after `RISCVAssembler.assemble` has run both
passes on one source text. -/
structure AsmState where
  labels : List (String × Nat)
  instructions : List PendingInstr
  machine_code : List Nat
  errors : List Diagnostic
deriving DecidableEq

/-- Both passes of `RISCVAssembler.assemble` on a fresh instance. -/
def assembleState (source : String) : AsmState :=
  let lines := splitNL source
  let fp := first_pass lines
  let sp := second_pass fp.2 fp.1
  ⟨fp.2, fp.1, sp.1, sp.2⟩

/-- What the caller of `RISCVAssembler.assemble` observes: the
machine-code list on success, and the `sys.exit(1)` path (carrying the
printed error list) when `self.errors` is non-empty. -/
def assemble (source : String) : Except (List Diagnostic) (List Nat) :=
  let st := assembleState source
  if st.errors = [] then .ok st.machine_code else .error st.errors

/-- Uppercase hexadecimal digit string of `n` (Python `X` format). -/
def hexUpper (n : Nat) : List Char := (Nat.toDigits 16 n).map Char.toUpper

/-- Zero-pad on the left to width `w` (Python `0{w}` fill, no truncation). -/
def padZeros (w : Nat) (cs : List Char) : List Char :=
  List.replicate (w - cs.length) '0' ++ cs

/-- Python `f"{n:08X}"`. -/
def hex8 (n : Nat) : String := ⟨padZeros 8 (hexUpper n)⟩

/-- Python `f"{n:02X}"`. -/
def hex2 (n : Nat) : String := ⟨padZeros 2 (hexUpper n)⟩

/-- One `I_MEM_BLOCK` line of `to_verilog` for word `w` at entry `i`. -/
def verilogEntry (i : Nat) (w : Nat) (p : PendingInstr) : String :=
  "        I_MEM_BLOCK[" ++ Nat.repr i ++ "]  = 32\x27h" ++ hex8 w ++
    ";  // 0x" ++ hex2 p.addr ++ ": " ++ p.text

/-- One NOP filler line of `to_verilog` for entry `i`. -/
def fillerLine (i : Nat) : String :=
  "        I_MEM_BLOCK[" ++ Nat.repr i ++ "] = 32\x27h00000013;  // nop"

/-- The 77-equals-sign banner line of `to_verilog`'s header. -/
def verilogBanner : String := "// " ++ ⟨List.replicate 77 '='⟩

/-- Fixed header lines of `to_verilog`. -/
def verilogHeader : List String :=
  [verilogBanner,
   "// RISC-V Instruction Memory - Auto-generated by riscv_assembler.py",
   verilogBanner,
   "",
   "    initial begin"]

/-- Line list built by `RISCVAssembler.to_verilog`: header, one entry per
element of `zip(machine_code, instructions)`, then NOP fillers for the
indices `range(len(machine_code), min(len(machine_code) + 5, 64))`. -/
def to_verilog_lines (code : List Nat) (insts : List PendingInstr) : List String :=
  verilogHeader ++
    ((code.zip insts).enum.map (fun p => verilogEntry p.1 p.2.1 p.2.2)) ++
    ["", "        // Fill remaining with NOPs"] ++
    ((List.range' code.length (min (code.length + 5) 64 - code.length)).map fillerLine) ++
    ["    end"]

/-- Embedding of `RISCVAssembler.to_verilog` on the final state. -/
def to_verilog (st : AsmState) : String :=
  String.intercalate "\n" (to_verilog_lines st.machine_code st.instructions)

/-! Helper lemmas -/

lemma dropWhile_eq_self_of_not (p : Char → Bool) (l : List Char)
    (h : ∀ c ∈ l, p c = false) : l.dropWhile p = l := by
  cases l with
  | nil => rfl
  | cons c r => simp [List.dropWhile_cons, h c (by simp)]

lemma pyStripL_eq_self (l : List Char) (h : ∀ c ∈ l, isPySpace c = false) :
    pyStripL l = l := by
  unfold pyStripL
  rw [dropWhile_eq_self_of_not _ l h,
    dropWhile_eq_self_of_not _ _ (fun c hc => h c (List.mem_reverse.mp hc)),
    List.reverse_reverse]

lemma not_pyspace_of_digit (c : Char) (h : c.isDigit = true) : isPySpace c = false := by
  cases hc : isPySpace c
  · rfl
  · exfalso
    simp only [isPySpace, Bool.or_eq_true, decide_eq_true_eq] at hc
    rcases hc with ((((h1 | h1) | h1) | h1) | h1) | h1 <;> subst h1 <;>
      exact absurd h (by decide)

lemma ne_comma_of_digit (c : Char) (h : c.isDigit = true) : c ≠ ',' := by
  intro h1
  subst h1
  exact absurd h (by decide)

lemma dictGet?_dictSet (m : List (String × Nat)) (k : String) (v : Nat) (k' : String) :
    dictGet? (dictSet m k v) k' = if k = k' then some v else dictGet? m k' := by
  induction m with
  | nil => simp [dictSet, dictGet?]
  | cons p rest ih =>
    obtain ⟨k0, v0⟩ := p
    by_cases h0 : k0 = k
    · subst h0
      simp only [dictSet, if_pos rfl, dictGet?]
      by_cases h1 : k0 = k' <;> simp [h1]
    · simp only [dictSet, if_neg h0, dictGet?, ih]
      by_cases h1 : k0 = k'
      · subst h1
        have h2 : k ≠ k0 := fun hh => h0 hh.symm
        simp [h2]
      · simp [h1]

lemma mem_takeWhile_digit (p : Char → Bool) (l : List Char) (c : Char)
    (h : c ∈ l.takeWhile p) : p c = true := by
  induction l with
  | nil => simp [List.takeWhile] at h
  | cons d r ih =>
    rw [List.takeWhile_cons] at h
    by_cases hd : p d
    · simp [hd] at h
      rcases h with h | h
      · subst h; exact hd
      · exact ih h
    · simp [hd] at h

/-- Capture group 1 of the memory-operand regex consists of an optional
leading minus sign followed by digits. -/
lemma memMatch_fst_chars (cs off reg : List Char) (h : memMatch cs = some (off, reg)) :
    ∀ c ∈ off, c = '-' ∨ c.isDigit = true := by
  unfold memMatch at h
  intro c hc
  split at h <;>
  · simp only at h
    split at h
    · exact absurd h (by simp)
    · split at h
      · split at h
        · exact absurd h (by simp)
        · split at h
          · simp only [Option.some.injEq, Prod.mk.injEq] at h
            rw [← h.1] at hc
            rcases List.mem_append.mp hc with hc | hc
            · refine Or.inl ?_
              first
                | exact List.mem_singleton.mp hc
                | exact absurd hc (List.not_mem_nil c)
            · exact Or.inr (mem_takeWhile_digit _ _ _ hc)
          · exact absurd h (by simp)
      · exact absurd h (by simp)

/-- Stripping and de-comma-ing the regex group 1 leaves it unchanged. -/
lemma clean_memMatch_fst (cs off reg : List Char) (h : memMatch cs = some (off, reg)) :
    (pyStripL off).filter (fun c => c ≠ ',') = off := by
  have hchars := memMatch_fst_chars cs off reg h
  rw [pyStripL_eq_self off (fun c hc => by
    rcases hchars c hc with h1 | h1
    · subst h1; decide
    · exact not_pyspace_of_digit c h1)]
  rw [List.filter_eq_self.mpr (fun c hc => by
    rcases hchars c hc with h1 | h1
    · subst h1; decide
    · simpa using ne_comma_of_digit c h1)]

lemma parse_register_error_shape (t : String) (e : AsmErr)
    (h : parse_register t = .error e) : ∃ s, e = .unknownRegister s := by
  unfold parse_register at h
  dsimp only at h
  split at h
  · exact absurd h (by simp)
  · simp only [Except.error.injEq] at h
    exact ⟨_, h.symm⟩

lemma parse_immediate_error_shape (t : String) (bits : Nat) (signed : Bool) (e : AsmErr)
    (h : parse_immediate t bits signed = .error e) :
    (∃ s, e = .invalidIntLiteral s) ∨ (∃ v lo hi, e = .immediateOutOfRange v lo hi) := by
  unfold parse_immediate at h
  dsimp only at h
  repeat' split at h
  all_goals
    first
      | exact Except.noConfusion h
      | (injection h with h1
         exact Or.inl ⟨_, h1.symm⟩)
      | (injection h with h1
         exact Or.inr ⟨_, _, _, h1.symm⟩)

/-- Splitting `second_pass` around one pending instruction whose encoding
fails. -/
lemma second_pass_append_error (labels : List (String × Nat))
    (pre post : List PendingInstr) (p : PendingInstr) (e : AsmErr)
    (h : assemble_instruction labels p.text p.addr = .error e) :
    second_pass labels (pre ++ p :: post) =
      ((second_pass labels pre).1 ++ (second_pass labels post).1,
       (second_pass labels pre).2 ++
         ⟨p.lineNum, e, p.text⟩ :: (second_pass labels post).2) := by
  induction pre with
  | nil => simp [second_pass, h]
  | cons q pre ih =>
    simp only [List.cons_append, second_pass]
    cases hq : assemble_instruction labels q.text q.addr <;> simp [hq, ih]

/-! Claim theorems -/

/-- Source text of the C1 failing input. -/
def c1Source : String := "add x1, x2, x3\nadd x1, xq, x3"

/-- C1: the spec says `assemble` returns the pair of the machine-word
sequence and the diagnostic sequence to its caller.  The per-line part
holds (the failing line yields a diagnostic, the other line its word, both
held in the instance state), but on any non-empty error list the code
prints and calls `sys.exit(1)`, so the caller observes the exit path and
never receives the pair — contradicting the code's own GUI caller, which
inspects `asm.errors` after `assemble` returns. -/
theorem assemble_exits_on_error :
    (assembleState c1Source).machine_code = [0x003100B3] ∧
    (assembleState c1Source).errors =
      [⟨2, .unknownRegister "xq", "add x1, xq, x3"⟩] ∧
    assemble c1Source = .error [⟨2, .unknownRegister "xq", "add x1, xq, x3"⟩] :=
  ⟨rfl, rfl, rfl⟩

/-- C2: a per-line encoding failure contributes exactly one diagnostic
carrying that line's number and text, and removes nothing from the other
lines: the words and diagnostics of the surrounding lines are exactly
those produced with the failing line processed in place, in original
order. -/
theorem per_line_failure_isolation (labels : List (String × Nat))
    (pre post : List PendingInstr) (p : PendingInstr) (e : AsmErr)
    (h : assemble_instruction labels p.text p.addr = .error e) :
    second_pass labels (pre ++ p :: post) =
      ((second_pass labels pre).1 ++ (second_pass labels post).1,
       (second_pass labels pre).2 ++
         ⟨p.lineNum, e, p.text⟩ :: (second_pass labels post).2) :=
  second_pass_append_error labels pre post p e h

/-- Source text of the C2 example: five instruction lines with an unknown
register on line 3. -/
def c2Source : String :=
  "addi x1, x0, 1\naddi x2, x0, 2\nadd x3, xq, x1\naddi x4, x0, 4\naddi x5, x0, 5"

/-- Witness for C2: the concrete 5-line program with an unknown register
on line 3 yields exactly one diagnostic referencing line 3 and the four
words of the remaining lines in original order. -/
theorem per_line_failure_isolation_witness :
    second_pass []
        ([⟨0, "addi x1, x0, 1", 1⟩, ⟨4, "addi x2, x0, 2", 2⟩] ++
          ⟨8, "add x3, xq, x1", 3⟩ ::
            [⟨12, "addi x4, x0, 4", 4⟩, ⟨16, "addi x5, x0, 5", 5⟩]) =
      ([0x00100093, 0x00200113, 0x00400213, 0x00500293],
        [⟨3, .unknownRegister "xq", "add x3, xq, x1"⟩]) ∧
    assembleState c2Source =
      ⟨[],
        [⟨0, "addi x1, x0, 1", 1⟩, ⟨4, "addi x2, x0, 2", 2⟩,
         ⟨8, "add x3, xq, x1", 3⟩, ⟨12, "addi x4, x0, 4", 4⟩,
         ⟨16, "addi x5, x0, 5", 5⟩],
        [0x00100093, 0x00200113, 0x00400213, 0x00500293],
        [⟨3, .unknownRegister "xq", "add x3, xq, x1"⟩]⟩ :=
  ⟨(per_line_failure_isolation []
      [⟨0, "addi x1, x0, 1", 1⟩, ⟨4, "addi x2, x0, 2", 2⟩]
      [⟨12, "addi x4, x0, 4", 4⟩, ⟨16, "addi x5, x0, 5", 5⟩]
      ⟨8, "add x3, xq, x1", 3⟩ (.unknownRegister "xq") rfl).trans rfl,
   rfl⟩

/-- C5: each pseudo-instruction is encoded exactly as its expansion, on
every operand token list, label table and instruction address: `nop` as
`addi x0,x0,0`, `li rd,imm` as `addi rd,x0,imm`, `mv rd,rs` as
`addi rd,rs,0`, and `j target` as `jal x0,target` with identical offset
resolution. -/
theorem pseudo_instruction_expansion (labels : List (String × Nat))
    (addr : Nat) (t1 t2 : String) (rest : List String) :
    encodeTokens labels addr ("nop" :: rest) =
        encodeTokens labels addr ("addi" :: "x0" :: "x0" :: "0" :: rest)
  ∧ encodeTokens labels addr ("li" :: t1 :: t2 :: rest) =
        encodeTokens labels addr ("addi" :: t1 :: "x0" :: t2 :: rest)
  ∧ encodeTokens labels addr ("mv" :: t1 :: t2 :: rest) =
        encodeTokens labels addr ("addi" :: t1 :: t2 :: "0" :: rest)
  ∧ encodeTokens labels addr ("j" :: t1 :: rest) =
        encodeTokens labels addr ("jal" :: "x0" :: t1 :: rest) :=
  ⟨rfl, rfl, rfl, rfl⟩

/-- C6: `addi x5, x0, 7` encodes to `0x00700293`, via the I-type encoder
and end to end through `assemble`. -/
theorem addi_example_encoding :
    assemble_instruction [] "addi x5, x0, 7" 0 = .ok 0x00700293 ∧
    encode_i_type "addi" 5 0 7 = 0x00700293 ∧
    assemble "addi x5, x0, 7" = .ok [0x00700293] :=
  ⟨rfl, rfl, rfl⟩

set_option maxHeartbeats 1600000 in
/-- C3: for branches and `jal`, a target operand found in the label table
resolves to the signed byte offset `label_address - current_address`,
whatever the source order of label and instruction; an unknown target is
parsed as a literal signed immediate of the format's offset width (13
bits for branches, 21 bits for `jal`). -/
theorem branch_jump_offset_resolution (labels : List (String × Nat))
    (addr : Nat) (m t1 t2 tgt : String) (rest : List String) (a : Nat)
    (hm : m ∈ ["beq", "bne", "blt", "bge", "bltu", "bgeu"]) :
    (dictGet? labels tgt = some a →
      encodeTokens labels addr (m :: t1 :: t2 :: tgt :: rest) =
        (do let rs1 ← parse_register t1
            let rs2 ← parse_register t2
            return encode_b_type m rs1 rs2 ((a : Int) - addr)))
  ∧ (dictGet? labels tgt = none →
      encodeTokens labels addr (m :: t1 :: t2 :: tgt :: rest) =
        (do let rs1 ← parse_register t1
            let rs2 ← parse_register t2
            let off ← parse_immediate tgt 13 true
            return encode_b_type m rs1 rs2 off))
  ∧ (dictGet? labels tgt = some a →
      encodeTokens labels addr ("jal" :: t1 :: tgt :: rest) =
        (do let rd ← parse_register t1
            return encode_j_type "jal" rd ((a : Int) - addr)))
  ∧ (dictGet? labels tgt = none →
      encodeTokens labels addr ("jal" :: t1 :: tgt :: rest) =
        (do let rd ← parse_register t1
            let off ← parse_immediate tgt 21 true
            return encode_j_type "jal" rd off)) := by
  refine ⟨fun h => ?_, fun h => ?_, fun h => ?_, fun h => ?_⟩
  · fin_cases hm <;>
    · simp only [encodeTokens, getPart, List.get?, pyLower, bind, Except.bind,
        pure, Except.pure]
      simp [h]
  · fin_cases hm <;>
    · simp only [encodeTokens, getPart, List.get?, pyLower, bind, Except.bind,
        pure, Except.pure]
      simp [h]
  · simp only [encodeTokens, getPart, List.get?, pyLower, bind, Except.bind,
      pure, Except.pure]
    simp [h]
  · simp only [encodeTokens, getPart, List.get?, pyLower, bind, Except.bind,
      pure, Except.pure]
    simp [h]

/-- Source text of the C3 witness: a branch that references its label
before the label's definition. -/
def c3Source : String := "beq x1, x2, done\nadd x1, x1, x2\ndone: halt"

/-- Witness for C3: the forward-referenced `done` label (defined two lines
after the branch) resolves to offset `8 - 0 = 8` and the program encodes
fully. -/
theorem branch_jump_offset_resolution_witness :
    encodeTokens [("done", 8)] 0 ["beq", "x1", "x2", "done"] = .ok 0x00208463 ∧
    (0x00208463 : Nat) = encode_b_type "beq" 1 2 ((8 : Int) - (0 : Nat)) ∧
    (assembleState c3Source).labels = [("done", 8)] ∧
    (assembleState c3Source).machine_code = [0x00208463, 0x002080B3, 0x00000073] := by
  refine ⟨?_, rfl, rfl, rfl⟩
  exact ((branch_jump_offset_resolution [("done", 8)] 0 "beq" "x1" "x2" "done" [] 8
    (by decide)).1 rfl).trans rfl

/-- C4: `parse_immediate` parses decimal, `0x` hexadecimal and `0b` binary
literals, succeeds exactly on values inside the signed (resp. unsigned)
`bits`-wide range and fails with the out-of-range error otherwise, and
maps a negative accepted value to its `bits`-bit two's complement; in
particular `addi x1,x0,2048` fails, `addi x1,x0,2047` succeeds with
immediate field `0x7FF`. -/
theorem parse_immediate_spec (tok : String) (bits : Nat) (signed : Bool) (v : Int)
    (h : pyIntLiteral ((pyStripL tok.data).filter (fun c => c ≠ ',')) = some v) :
    parse_immediate tok bits signed =
      (if v < (if signed then -(2 ^ (bits - 1)) else 0) ∨
          v > (if signed then 2 ^ (bits - 1) - 1 else (2 : Int) ^ bits - 1) then
        .error (.immediateOutOfRange v (if signed then -(2 ^ (bits - 1)) else 0)
          (if signed then 2 ^ (bits - 1) - 1 else (2 : Int) ^ bits - 1))
      else if v < 0 then .ok (Int.emod v (2 ^ bits)) else .ok v)
  ∧ assemble_instruction [] "addi x1, x0, 2048" 0 =
      .error (.immediateOutOfRange 2048 (-2048) 2047)
  ∧ assemble_instruction [] "addi x1, x0, 2047" 0 = .ok 0x7FF00093
  ∧ pyAndMask (pyShr 0x7FF00093 20) 12 = 0x7FF
  ∧ parse_immediate "0x7FF" 12 true = .ok 2047
  ∧ parse_immediate "0b101" 12 true = .ok 5
  ∧ parse_immediate "-4" 13 true = .ok 8188 := by
  refine ⟨?_, rfl, rfl, rfl, rfl, rfl, rfl⟩
  unfold parse_immediate
  dsimp only
  rw [h]

/-- Witness for C4: the 12-bit signed boundary pair from the claim. -/
theorem parse_immediate_spec_witness :
    parse_immediate "2048" 12 true =
      .error (.immediateOutOfRange 2048 (-2048) 2047) ∧
    parse_immediate "2047" 12 true = .ok 2047 :=
  ⟨((parse_immediate_spec "2048" 12 true 2048 rfl).1).trans rfl,
   ((parse_immediate_spec "2047" 12 true 2047 rfl).1).trans rfl⟩

/-- C9: `jalr` accepts the memory-operand form `jalr rd, offset(rs1)` and
the register form `jalr rd, rs1` with optional third immediate operand;
with the immediate omitted the encoded offset is 0. -/
theorem jalr_operand_forms (labels : List (String × Nat)) (addr : Nat)
    (t1 t2 t3 tm : String) (h2 : '(' ∉ t2.data) (hmem : '(' ∈ tm.data) :
    encodeTokens labels addr ["jalr", t1, t2] =
      (do let rd ← parse_register t1
          let rs1 ← parse_register t2
          return encode_i_type "jalr" rd rs1 0)
  ∧ encodeTokens labels addr ["jalr", t1, t2, t3] =
      (do let rd ← parse_register t1
          let rs1 ← parse_register t2
          let off ← parse_immediate t3 12 true
          return encode_i_type "jalr" rd rs1 off)
  ∧ encodeTokens labels addr ["jalr", t1, tm] =
      (do let rd ← parse_register t1
          let ob ← parse_memory_operand tm
          return encode_i_type "jalr" rd ob.2 ob.1) := by
  refine ⟨?_, ?_, ?_⟩ <;>
  · simp only [encodeTokens, getPart, List.get?, pyLower, bind, Except.bind, pure,
      Except.pure]
    simp [h2, hmem]

/-- Witness for C9: `jalr x1, x2` encodes with offset 0, and the other two
forms encode their explicit offsets. -/
theorem jalr_operand_forms_witness :
    encodeTokens [] 0 ["jalr", "x1", "x2"] = .ok 0x000100E7 ∧
    encodeTokens [] 0 ["jalr", "x1", "8(x2)"] = .ok 0x008100E7 ∧
    encodeTokens [] 0 ["jalr", "x1", "x2", "12"] = .ok 0x00C100E7 := by
  have h := jalr_operand_forms [] 0 "x1" "x2" "12" "8(x2)" (by decide) (by decide)
  exact ⟨h.1.trans rfl, h.2.2.trans rfl, h.2.1.trans rfl⟩

/-- C10: a memory operand that matches `<int>(<register>)` but whose
offset is outside the 12-bit signed range fails with the
immediate-out-of-range error (the offset is range-checked like any 12-bit
signed immediate), while the invalid-memory-operand error is raised only
for tokens the anchored regex does not match at all. -/
theorem memory_operand_error_classes :
    (∀ (tok : String) (off reg : List Char) (v : Int),
      memMatch (pyStripL tok.data) = some (off, reg) →
      pyIntLiteral off = some v → (v < -2048 ∨ v > 2047) →
      parse_memory_operand tok = .error (.immediateOutOfRange v (-2048) 2047))
  ∧ (∀ tok m : String,
      parse_memory_operand tok = .error (.invalidMemoryOperand m) →
      memMatch (pyStripL tok.data) = none) := by
  constructor
  · intro tok off reg v hm hv hout
    have hclean : (pyStripL off).filter (fun c => c ≠ ',') = off :=
      clean_memMatch_fst _ off reg hm
    have himm : parse_immediate ⟨off⟩ 12 true =
        .error (.immediateOutOfRange v (-2048) 2047) := by
      unfold parse_immediate
      dsimp only
      rw [hclean, hv]
      simp only [eq_self_iff_true, if_true]
      norm_num
      intro h1 h2
      exfalso
      rcases hout with h3 | h3 <;> omega
    unfold parse_memory_operand
    rw [hm]
    simp [himm, bind, Except.bind]
  · intro tok m h
    cases hm : memMatch (pyStripL tok.data) with
    | none => rfl
    | some p =>
      exfalso
      obtain ⟨off, reg⟩ := p
      unfold parse_memory_operand at h
      rw [hm] at h
      cases hi : parse_immediate ⟨off⟩ 12 true with
      | error e =>
        simp only [hi, bind, Except.bind] at h
        rcases parse_immediate_error_shape _ _ _ _ hi with ⟨s, rfl⟩ | ⟨v, lo, hi', rfl⟩ <;>
          simp at h
      | ok v =>
        cases hr : parse_register ⟨reg⟩ with
        | error e =>
          simp only [hi, hr, bind, Except.bind] at h
          rcases parse_register_error_shape _ _ hr with ⟨s, rfl⟩
          simp at h
        | ok r =>
          simp only [hi, hr, bind, Except.bind, pure, Except.pure] at h
          exact Except.noConfusion h

/-- Witness for C10: `5000(x1)` matches the regex and fails with the
out-of-range error; `(x1)` does not match and fails with the
invalid-memory-operand error. -/
theorem memory_operand_error_classes_witness :
    parse_memory_operand "5000(x1)" =
      .error (.immediateOutOfRange 5000 (-2048) 2047) ∧
    memMatch (pyStripL ("(x1)" : String).data) = none ∧
    parse_memory_operand "(x1)" = .error (.invalidMemoryOperand "(x1)") :=
  ⟨memory_operand_error_classes.1 "5000(x1)" ['5', '0', '0', '0'] ['x', '1'] 5000
      rfl rfl (by norm_num),
   memory_operand_error_classes.2 "(x1)" "(x1)" rfl,
   rfl⟩

/-- Invariant carried by pass 1: instruction addresses are `4 * index`,
and every registered label address is a multiple of 4 bounded by the
instruction count. -/
def fpInv (r : List PendingInstr × List (String × Nat)) : Prop :=
  (∀ i (h : i < r.1.length), (r.1.get ⟨i, h⟩).addr = 4 * i)
  ∧ (∀ nm a, dictGet? r.2 nm = some a → a % 4 = 0 ∧ a ≤ 4 * r.1.length)

lemma fpInv_append (addr : Nat) (txt : String) (n : Nat)
    (insts : List PendingInstr) (h1 : addr = 4 * insts.length)
    (h2 : ∀ i (h : i < insts.length), (insts.get ⟨i, h⟩).addr = 4 * i) :
    ∀ i (h : i < (insts ++ [(⟨addr, txt, n⟩ : PendingInstr)]).length),
      ((insts ++ [(⟨addr, txt, n⟩ : PendingInstr)]).get ⟨i, h⟩).addr = 4 * i := by
  intro i h
  have hlen : i < insts.length + 1 := by simpa using h
  rw [List.get_eq_getElem]
  by_cases hi : i < insts.length
  · rw [List.getElem_append_left hi]
    have h3 := h2 i hi
    rw [List.get_eq_getElem] at h3
    exact h3
  · have hieq : i = insts.length := by omega
    subst hieq
    rw [List.getElem_append_right (le_refl _)]
    simp [h1]

lemma first_pass_aux_invariant (lines : List String) :
    ∀ (n addr : Nat) (insts : List PendingInstr) (labels : List (String × Nat)),
      addr = 4 * insts.length →
      (∀ i (h : i < insts.length), (insts.get ⟨i, h⟩).addr = 4 * i) →
      (∀ nm a, dictGet? labels nm = some a → a % 4 = 0 ∧ a ≤ addr) →
      fpInv (first_pass_aux lines n addr insts labels) := by
  induction lines with
  | nil =>
    intro n addr insts labels h1 h2 h3
    refine ⟨h2, fun nm a ha => ?_⟩
    have h4 := h3 nm a ha
    have hlen : (first_pass_aux ([] : List String) n addr insts labels).1.length =
        insts.length := rfl
    exact ⟨h4.1, by omega⟩
  | cons l rest ih =>
    intro n addr insts labels h1 h2 h3
    simp only [first_pass_aux]
    split
    · exact ih (n + 1) addr insts labels h1 h2 h3
    · split
      · -- a label is registered at the current address
        have h3' : ∀ nm a,
            dictGet? (dictSet labels
              (pyStrip ⟨(pyStrip (stripComment l)).data.takeWhile (fun c => c ≠ ':')⟩)
              addr) nm = some a →
            a % 4 = 0 ∧ a ≤ addr := by
          intro nm a ha
          rw [dictGet?_dictSet] at ha
          split at ha
          · cases ha
            exact ⟨by omega, le_refl _⟩
          · exact h3 nm a ha
        split
        · exact ih (n + 1) addr insts _ h1 h2 h3'
        · refine ih (n + 1) (addr + 4) (insts ++ [⟨addr, _, n⟩]) _ ?_ ?_ ?_
          · simp only [List.length_append, List.length_singleton]
            omega
          · exact fpInv_append addr _ n insts h1 h2
          · intro nm a ha
            have h4 := h3' nm a ha
            exact ⟨h4.1, by omega⟩
      · refine ih (n + 1) (addr + 4) (insts ++ [⟨addr, _, n⟩]) _ ?_ ?_ ?_
        · simp only [List.length_append, List.length_singleton]
          omega
        · exact fpInv_append addr _ n insts h1 h2
        · intro nm a ha
          have h4 := h3 nm a ha
          exact ⟨h4.1, by omega⟩

/-- C7: after pass 1, the i-th pending instruction sits at address `4*i`,
every label address is a multiple of 4 (bounded by the instruction list),
and a label address inside the program is exactly the address of pending
instruction number `address / 4` — the next instruction appended after
the label was registered. -/
theorem first_pass_address_invariants (lines : List String) :
    (∀ i (h : i < (first_pass lines).1.length),
        ((first_pass lines).1.get ⟨i, h⟩).addr = 4 * i)
  ∧ (∀ nm a, dictGet? (first_pass lines).2 nm = some a →
        a % 4 = 0 ∧ a ≤ 4 * (first_pass lines).1.length)
  ∧ (∀ nm a, dictGet? (first_pass lines).2 nm = some a →
        ∀ hlt : a / 4 < (first_pass lines).1.length,
        ((first_pass lines).1.get ⟨a / 4, hlt⟩).addr = a) := by
  have h : fpInv (first_pass lines) :=
    first_pass_aux_invariant lines 1 0 [] []
      rfl (fun i hi => by simp at hi) (fun nm a ha => by simp [dictGet?] at ha)
  refine ⟨h.1, h.2, fun nm a ha hlt => ?_⟩
  obtain ⟨h4a, h4b⟩ := h.2 nm a ha
  have h5 := h.1 (a / 4) hlt
  rw [h5]
  omega

/-- Line list of the C7 witness program: a leading label with an
instruction on the same line, a label-only line in the middle, and a
trailing label. -/
def c7Lines : List String := splitNL "start: addi x1, x0, 1\nnop\nmid:\nnop\nlast:"

/-- Witness for C7: in the concrete program, pending instruction 1 sits at
address 4, and the `mid` label is bound to 8 — a multiple of 4 no larger
than 4 times the instruction count, and the address of pending
instruction `8 / 4`. -/
theorem first_pass_address_invariants_witness :
    ((first_pass c7Lines).1.get ⟨1, by decide⟩).addr = 4 * 1 ∧
    ((8 : Nat) % 4 = 0 ∧ 8 ≤ 4 * (first_pass c7Lines).1.length) ∧
    ((first_pass c7Lines).1.get ⟨8 / 4, by decide⟩).addr = 8 :=
  ⟨(first_pass_address_invariants c7Lines).1 1 (by decide),
   (first_pass_address_invariants c7Lines).2.1 "mid" 8 rfl,
   (first_pass_address_invariants c7Lines).2.2 "mid" 8 rfl (by decide)⟩

/-- Counterexample for C8: the claim as stated — filler entries continuing
up to the fixed array capacity of 64 — is false: a one-word program gets
filler entries for indices 1 through 5 only, not 1 through 63. -/
theorem verilog_filler_counterexample :
    to_verilog_lines [0x00000013] [⟨0, "nop", 1⟩] ≠
      verilogHeader ++ [verilogEntry 0 0x00000013 ⟨0, "nop", 1⟩] ++
        ["", "        // Fill remaining with NOPs"] ++
        ((List.range' 1 63).map fillerLine) ++ ["    end"] := by
  intro hcontra
  have hlen := congrArg List.length hcontra
  simp [to_verilog_lines, verilogHeader] at hlen

/-- C8 (amended): the hardware-init text has one `I_MEM_BLOCK` entry per
machine word, followed by `min 5 (64 - word_count)` no-op filler entries —
at most five, never past array index 63 — each filler being the `nop`
encoding `0x00000013`. -/
theorem verilog_entries_and_fillers (code : List Nat) (insts : List PendingInstr)
    (h : code.length ≤ insts.length) :
    to_verilog_lines code insts =
      verilogHeader ++
        ((code.zip insts).enum.map (fun p => verilogEntry p.1 p.2.1 p.2.2)) ++
        ["", "        // Fill remaining with NOPs"] ++
        ((List.range' code.length (min 5 (64 - code.length))).map fillerLine) ++
        ["    end"]
  ∧ ((code.zip insts).enum.map (fun p => verilogEntry p.1 p.2.1 p.2.2)).length
      = code.length
  ∧ ∀ i, fillerLine i =
      "        I_MEM_BLOCK[" ++ Nat.repr i ++ "] = 32\x27h00000013;  // nop" := by
  refine ⟨?_, ?_, fun i => rfl⟩
  · unfold to_verilog_lines
    have heq : min (code.length + 5) 64 - code.length = min 5 (64 - code.length) := by
      omega
    rw [heq]
  · simp only [List.length_map, List.enum_length, List.length_zip]
    omega

/-- Witness for C8: the two-word program shows two entries followed by
five fillers. -/
theorem verilog_entries_and_fillers_witness :
    to_verilog_lines [19, 19] [⟨0, "nop", 1⟩, ⟨4, "nop", 2⟩] =
      verilogHeader ++
        ((([19, 19] : List Nat).zip [(⟨0, "nop", 1⟩ : PendingInstr), ⟨4, "nop", 2⟩]).enum.map
          (fun p => verilogEntry p.1 p.2.1 p.2.2)) ++
        ["", "        // Fill remaining with NOPs"] ++
        ((List.range' ([19, 19] : List Nat).length
          (min 5 (64 - ([19, 19] : List Nat).length))).map fillerLine) ++
        ["    end"]
  ∧ ((([19, 19] : List Nat).zip [(⟨0, "nop", 1⟩ : PendingInstr), ⟨4, "nop", 2⟩]).enum.map
        (fun p => verilogEntry p.1 p.2.1 p.2.2)).length = ([19, 19] : List Nat).length
  ∧ ∀ i, fillerLine i =
      "        I_MEM_BLOCK[" ++ Nat.repr i ++ "] = 32\x27h00000013;  // nop" :=
  verilog_entries_and_fillers [19, 19] [⟨0, "nop", 1⟩, ⟨4, "nop", 2⟩] (by decide)

end RiscvAsm
